import Mathlib

/-!
Verification of the spotify-backup utilities: a shallow embedding of the
track-index builder, track resolver and tag reconciler of
add_spotify_tags.py, and of the export flattener of generate_oggify.py,
together with proofs about the properties those components are documented
to have.

JSON documents are modelled by an explicit value type; Python dictionary
and sequence operations (bracket access, membership, iteration, str()) are
modelled by total Lean functions, with Except Unit capturing operations
that raise an uncaught Python exception (KeyError / TypeError /
AttributeError / a network error escaping a fetch call).
-/

/-- JSON values as produced by json.load: null, strings, numbers
(integral, which is all the backup format uses), arrays, and objects as
insertion-ordered association lists with unique keys. -/
inductive JsonVal where
  | null
  | str (s : String)
  | num (n : Int)
  | arr (elems : List JsonVal)
  | obj (fields : List (String × JsonVal))

mutual

def jvDecEq : (a b : JsonVal) → Decidable (a = b)
  | .null, .null => isTrue rfl
  | .null, .str _ => isFalse fun h => JsonVal.noConfusion h
  | .null, .num _ => isFalse fun h => JsonVal.noConfusion h
  | .null, .arr _ => isFalse fun h => JsonVal.noConfusion h
  | .null, .obj _ => isFalse fun h => JsonVal.noConfusion h
  | .str _, .null => isFalse fun h => JsonVal.noConfusion h
  | .str s, .str t =>
      match String.decEq s t with
      | isTrue h => isTrue (h ▸ rfl)
      | isFalse h => isFalse fun he => h (JsonVal.noConfusion he id)
  | .str _, .num _ => isFalse fun h => JsonVal.noConfusion h
  | .str _, .arr _ => isFalse fun h => JsonVal.noConfusion h
  | .str _, .obj _ => isFalse fun h => JsonVal.noConfusion h
  | .num _, .null => isFalse fun h => JsonVal.noConfusion h
  | .num _, .str _ => isFalse fun h => JsonVal.noConfusion h
  | .num n, .num m =>
      match Int.decEq n m with
      | isTrue h => isTrue (h ▸ rfl)
      | isFalse h => isFalse fun he => h (JsonVal.noConfusion he id)
  | .num _, .arr _ => isFalse fun h => JsonVal.noConfusion h
  | .num _, .obj _ => isFalse fun h => JsonVal.noConfusion h
  | .arr _, .null => isFalse fun h => JsonVal.noConfusion h
  | .arr _, .str _ => isFalse fun h => JsonVal.noConfusion h
  | .arr _, .num _ => isFalse fun h => JsonVal.noConfusion h
  | .arr xs, .arr ys =>
      match jvListDecEq xs ys with
      | isTrue h => isTrue (h ▸ rfl)
      | isFalse h => isFalse fun he => h (JsonVal.noConfusion he id)
  | .arr _, .obj _ => isFalse fun h => JsonVal.noConfusion h
  | .obj _, .null => isFalse fun h => JsonVal.noConfusion h
  | .obj _, .str _ => isFalse fun h => JsonVal.noConfusion h
  | .obj _, .num _ => isFalse fun h => JsonVal.noConfusion h
  | .obj _, .arr _ => isFalse fun h => JsonVal.noConfusion h
  | .obj fs, .obj gs =>
      match jvFieldsDecEq fs gs with
      | isTrue h => isTrue (h ▸ rfl)
      | isFalse h => isFalse fun he => h (JsonVal.noConfusion he id)

def jvListDecEq : (xs ys : List JsonVal) → Decidable (xs = ys)
  | [], [] => isTrue rfl
  | [], _ :: _ => isFalse fun h => List.noConfusion h
  | _ :: _, [] => isFalse fun h => List.noConfusion h
  | x :: xs, y :: ys =>
      match jvDecEq x y with
      | isFalse h => isFalse fun he => h (List.noConfusion he fun h1 _ => h1)
      | isTrue h1 =>
          match jvListDecEq xs ys with
          | isTrue h2 => isTrue (h1 ▸ h2 ▸ rfl)
          | isFalse h2 => isFalse fun he => h2 (List.noConfusion he fun _ hx => hx)

def jvFieldsDecEq : (xs ys : List (String × JsonVal)) → Decidable (xs = ys)
  | [], [] => isTrue rfl
  | [], _ :: _ => isFalse fun h => List.noConfusion h
  | _ :: _, [] => isFalse fun h => List.noConfusion h
  | (k, v) :: xs, (k', v') :: ys =>
      match String.decEq k k' with
      | isFalse h => isFalse fun he =>
          h (List.noConfusion he fun h1 _ => congrArg Prod.fst h1)
      | isTrue hk =>
          match jvDecEq v v' with
          | isFalse h => isFalse fun he =>
              h (List.noConfusion he fun h1 _ => congrArg Prod.snd h1)
          | isTrue hv =>
              match jvFieldsDecEq xs ys with
              | isTrue h2 => isTrue (hk ▸ hv ▸ h2 ▸ rfl)
              | isFalse h2 => isFalse fun he => h2 (List.noConfusion he fun _ hx => hx)

end

instance : DecidableEq JsonVal := jvDecEq

/-- First (and, for parsed JSON, only) binding of a key in an object's
field list; Python dict lookup. -/
def lookupField : List (String × JsonVal) → String → Option JsonVal
  | [], _ => none
  | (k', v) :: rest, k => if k' = k then some v else lookupField rest k

/-- Python dict assignment d[k] = v: replace the binding in place if the
key exists, otherwise append it. -/
def setField : List (String × JsonVal) → String → JsonVal → List (String × JsonVal)
  | [], k, v => [(k, v)]
  | (k', v') :: rest, k, v =>
      if k' = k then (k, v) :: rest else (k', v') :: setField rest k v

/-- Whether a value is an object carrying the given key (a jsonpath
field test; non-objects never match). -/
def pyHasField (v : JsonVal) (k : String) : Bool :=
  match v with
  | .obj fs => (lookupField fs k).isSome
  | _ => false

/-- Python d.get(k) used as a dict key: both a missing key and a JSON
null value are the Python object None, modelled as Option.none. -/
def pyKeyVal (v : JsonVal) (k : String) : Option JsonVal :=
  match v with
  | .obj fs =>
      match lookupField fs k with
      | some .null => none
      | some x => some x
      | none => none
  | _ => none

/-- Python str() of a JSON value. Strings pass through and numbers print
in decimal, which are the only cases the scripts rely on; renderings of
the remaining cases are abbreviated. -/
def pyStr : JsonVal → String
  | .null => "None"
  | .str s => s
  | .num n => toString n
  | .arr _ => "[...]"
  | .obj _ => "\x7b...\x7d"

/-- Python iteration over a value: lists yield elements, strings yield
one-character strings, dicts yield their keys; numbers and None raise
TypeError. -/
def pyIter (v : JsonVal) : Except Unit (List JsonVal) :=
  match v with
  | .arr xs => .ok xs
  | .str s => .ok (s.data.map fun c => .str c.toString)
  | .obj fs => .ok (fs.map fun kv => .str kv.1)
  | _ => .error ()

/-- Python bracket access v[k] with a string key: KeyError on a missing
key, TypeError on a non-dict; both are uncaught exceptions. -/
def jget (v : JsonVal) (k : String) : Except Unit JsonVal :=
  match v with
  | .obj fs =>
      match lookupField fs k with
      | some x => .ok x
      | none => .error ()
  | _ => .error ()

/-- Requires a string value (an operation such as slicing, .lower() or
.startswith() that raises on non-strings). -/
def asStr (v : JsonVal) : Except Unit String :=
  match v with
  | .str s => .ok s
  | _ => .error ()

mutual

def descendantsV : JsonVal → List JsonVal
  | .obj fs => .obj fs :: descendantsFields fs
  | .arr xs => .arr xs :: descendantsArr xs
  | v => [v]

def descendantsFields : List (String × JsonVal) → List JsonVal
  | [] => []
  | (_, v) :: rest => descendantsV v ++ descendantsFields rest

def descendantsArr : List JsonVal → List JsonVal
  | [] => []
  | v :: rest => descendantsV v ++ descendantsArr rest

end

/-- Jsonpath recursive descent on a field name: the values of every
object field with that name, anywhere in the document, in document
order. -/
def fieldMatches (name : String) (doc : JsonVal) : List JsonVal :=
  (descendantsV doc).filterMap fun v =>
    match v with
    | .obj fs => lookupField fs name
    | _ => none

/-! ## Index Builder (add_spotify_tags.py, main, track cache passes) -/

/-- The in-memory track index: a Python dict from str-or-None keys to
raw track entries, represented as the insertion sequence; lookup takes
the latest binding (last write wins). -/
abbrev Cache := List (Option JsonVal × JsonVal)

def cacheInsert (c : Cache) (k : Option JsonVal) (v : JsonVal) : Cache :=
  c ++ [(k, v)]

def cacheLookup (c : Cache) (k : Option JsonVal) : Option JsonVal :=
  c.foldl (fun acc kv => if kv.1 = k then some kv.2 else acc) none

/-- Matches of jsonpath "$..track where [id]": every field named track
whose value is an object carrying an id key. -/
def trackMatches (doc : JsonVal) : List JsonVal :=
  (fieldMatches "track" doc).filter fun m => pyHasField m "id"

/-- Matches of jsonpath "$..album where [tracks]": every field named
album whose value is an object carrying a tracks key. -/
def albumMatches (doc : JsonVal) : List JsonVal :=
  (fieldMatches "album" doc).filter fun m => pyHasField m "tracks"

/-- First pass: track_cache[match.value.get('id')] = match.value for
each single-track match. -/
def pass1 : List JsonVal → Cache → Cache
  | [], c => c
  | m :: rest, c => pass1 rest (cacheInsert c (pyKeyVal m "id") m)

/-- Second pass, inner loop body: t = deepcopy(track); t['album'] =
album; track_cache[t.get('id')] = t. Assigning into a non-dict track
raises TypeError. -/
def pass2Tracks (albumObj : JsonVal) : List JsonVal → Cache → Except Unit Cache
  | [], c => .ok c
  | tk :: rest, c =>
      match tk with
      | .obj fs =>
          pass2Tracks albumObj rest
            (cacheInsert c (pyKeyVal (.obj (setField fs "album" albumObj)) "id")
              (.obj (setField fs "album" albumObj)))
      | _ => .error ()

/-- Second pass over album matches: iterate match.value['tracks']['items']
and record each merged track. -/
def pass2Albums : List JsonVal → Cache → Except Unit Cache
  | [], c => .ok c
  | m :: rest, c =>
      match jget m "tracks" with
      | .error e => .error e
      | .ok tracksv =>
          match jget tracksv "items" with
          | .error e => .error e
          | .ok itemsv =>
              match pyIter itemsv with
              | .error e => .error e
              | .ok items =>
                  match pass2Tracks m items c with
                  | .error e => .error e
                  | .ok c2 => pass2Albums rest c2

/-- The whole index construction of main(): the single-track pass runs to
completion first, then the album-track pass. -/
def buildTrackCache (doc : JsonVal) : Except Unit Cache :=
  pass2Albums (albumMatches doc) (pass1 (trackMatches doc) [])

/-! ## Track Resolver (add_spotify_tags.py, Tagger.get_spotify_info) -/

/-- Canonical track record (class SpotifyInfo): every attribute starts
as None and is filled from the raw entry. -/
structure SpotifyInfo where
  title : Option JsonVal := none
  artist : Option (List JsonVal) := none
  album : Option JsonVal := none
  tracknumber : Option JsonVal := none
  image : Option JsonVal := none
  year : Option JsonVal := none
  spotify_id : Option JsonVal := none
  deriving DecidableEq

/-- The remote lookup collaborator (SpotifyAPI from the spotify-backup
script, outside this repository): a path plus a retry budget yields
either a parsed response or a raised error; the second argument is the
tries keyword. -/
structure RemoteService where
  get : String → Nat → Option JsonVal

structure Tagger where
  cache : Cache
  spotify : Option RemoteService

/-- The lookup path the resolver sends to the remote service for a given
identifier: the f-string tracks/{spotify_id}aa of the source, which
appends a literal aa after the identifier. -/
def remoteRequestPath (spotify_id : String) : String :=
  "tracks/" ++ spotify_id ++ "aa"

/-- Cover image choice from entry['album']['images']: index 1 when the
list has more than one element, index 0 when it has exactly one, and
None when it is empty. -/
def selectImageList (images : List JsonVal) : Option JsonVal :=
  match images with
  | _ :: b :: _ => some b
  | [a] => some a
  | [] => none

/-- len() and indexing of the images value; a non-list container is
modelled as a failure. -/
def selectImage (imagesv : JsonVal) : Except Unit (Option JsonVal) :=
  match imagesv with
  | .arr images => .ok (selectImageList images)
  | _ => .error ()

/-- Tagger.get_spotify_info: consult the cache; on a miss, ask the remote
service (whose own failure is caught and logged, leaving entry = None);
then build the record from the entry, where a missing expected field
raises an uncaught KeyError. -/
def get_spotify_info (tg : Tagger) (idv : JsonVal) : Except Unit (Option SpotifyInfo) :=
  let entry? : Option JsonVal :=
    match cacheLookup tg.cache (some idv) with
    | some e => some e
    | none =>
        match tg.spotify with
        | some svc => svc.get (remoteRequestPath (pyStr idv)) 2
        | none => none
  match entry? with
  | none => .ok none
  | some entry => do
      let albumv ← jget entry "album"
      let imagesv ← jget albumv "images"
      let image ← selectImage imagesv
      let tnv ← jget entry "track_number"
      let albnm ← jget albumv "name"
      let rdv ← jget albumv "release_date"
      let rds ← asStr rdv
      let artistsv ← jget entry "artists"
      let artistItems ← pyIter artistsv
      let artistNames ← artistItems.mapM fun a => jget a "name"
      let title ← jget entry "name"
      .ok (some
        { spotify_id := some idv
          image := image
          tracknumber := some (.str (pyStr tnv))
          album := some albnm
          year := some (.str (rds.take 4))
          artist := some artistNames
          title := some title })

/-! ## Tag Reconciler (add_spotify_tags.py, Tagger.write_tags) -/

/-- A file's vorbis comment block: tag name to ordered value list, the
empty list standing for an absent tag (mutagen's get with default []). -/
def TagSet := String → List JsonVal

def setTag (t : TagSet) (k : String) (v : List JsonVal) : TagSet :=
  fun k' => if k' = k then v else t k'

/-- Response of requests.get on an image URL. -/
structure FetchResponse where
  content : List Nat
  contentType : Option String

/-- The mutagen Picture envelope filled by write_tags before encoding. -/
structure Picture where
  data : List Nat
  description : String
  type : Nat
  width : JsonVal
  height : JsonVal
  mime : Option String

/-- External collaborators of the reconciler: the image fetch (None
models a raised network error) and the opaque Picture.write + base64 +
ascii-decode encoding chain. -/
structure Env where
  fetch : JsonVal → Option FetchResponse
  encodePicture : Picture → String

/-- One iteration of the write_tags field loop for a non-image field:
skip a None attribute, otherwise compare the normalized value list with
the current tag and overwrite on mismatch. -/
def stepScalar (t : TagSet) (changed : Bool) (name : String)
    (value : Option (List JsonVal)) : TagSet × Bool :=
  match value with
  | none => (t, changed)
  | some arr => if arr = t name then (t, changed) else (setTag t name arr, true)

/-- The image arm of the loop: only when no metadata_block_picture tag is
present, read url/width/height from the descriptor, fetch the bytes (a
failed fetch raises), build and encode the Picture, and store it. The
final component counts issued fetches. -/
def stepImage : Env → Option JsonVal → TagSet → Bool → Except Unit (TagSet × Bool × Nat)
  | _, none, t, changed => .ok (t, changed, 0)
  | env, some img, t, changed =>
      if t "metadata_block_picture" = [] then
        match jget img "url" with
        | .error e => .error e
        | .ok url =>
            match jget img "width" with
            | .error e => .error e
            | .ok w =>
                match jget img "height" with
                | .error e => .error e
                | .ok h =>
                    match env.fetch url with
                    | none => .error ()
                    | some r =>
                        .ok (setTag t "metadata_block_picture"
                              [.str (env.encodePicture
                                ⟨r.content, "coverart", 3, w, h, r.contentType⟩)],
                             true, 1)
      else .ok (t, changed, 0)

/-- stepScalar on a running (tag set, changed) state. -/
def stepScalarP (name : String) (value : Option (List JsonVal)) (s : TagSet × Bool) :
    TagSet × Bool :=
  stepScalar s.1 s.2 name value

/-- The field-loop iterations before the image field, in vars(info)
attribute insertion order: title, artist, album, tracknumber. -/
def reconcilePre (info : SpotifyInfo) (tags : TagSet) : TagSet × Bool :=
  stepScalarP "tracknumber" (info.tracknumber.map fun v => [v])
    (stepScalarP "album" (info.album.map fun v => [v])
      (stepScalarP "artist" info.artist
        (stepScalarP "title" (info.title.map fun v => [v]) (tags, false))))

/-- The field-loop iterations after the image field: year, spotify_id. -/
def reconcilePost (info : SpotifyInfo) (s : TagSet × Bool) : TagSet × Bool :=
  stepScalarP "spotify_id" (info.spotify_id.map fun v => [v])
    (stepScalarP "year" (info.year.map fun v => [v]) s)

/-- The whole field loop of write_tags over vars(info) in attribute
insertion order (title, artist, album, tracknumber, image, year,
spotify_id). Returns the updated tag set, the changed flag, and the
fetch count. -/
def reconcile (env : Env) (info : SpotifyInfo) (tags : TagSet) :
    Except Unit (TagSet × Bool × Nat) :=
  match stepImage env info.image (reconcilePre info tags).1 (reconcilePre info tags).2 with
  | .error e => .error e
  | .ok (t5, c5, n) =>
      .ok ((reconcilePost info (t5, c5)).1, (reconcilePost info (t5, c5)).2, n)

/-- Tagger.write_tags on one file, given its current tag set: skip files
without a spotify_id tag, skip files whose resolution yields None, and
otherwise run the field loop; the returned Bool is the changed flag that
gates ogg.save(). Uncaught exceptions propagate. -/
def write_tags (tg : Tagger) (env : Env) (tags : TagSet) : Except Unit (TagSet × Bool) :=
  match tags "spotify_id" with
  | [] => .ok (tags, false)
  | idv :: _ =>
      match get_spotify_info tg idv with
      | .error e => .error e
      | .ok none => .ok (tags, false)
      | .ok (some info) =>
          match reconcile env info tags with
          | .error e => .error e
          | .ok (t, c, _) => .ok (t, c)

/-- The loop of main() over the input files, in order; an exception
escaping write_tags aborts the whole run. -/
def processFiles (tg : Tagger) (env : Env) : List TagSet → Except Unit (List (TagSet × Bool))
  | [] => .ok []
  | t :: ts =>
      match write_tags tg env t with
      | .error e => .error e
      | .ok r =>
          match processFiles tg env ts with
          | .error e => .error e
          | .ok rs => .ok (r :: rs)

/-! ## Export Flattener (generate_oggify.py, module-level loop) -/

/-- Substring containment, Python's in operator on strings. -/
def pySubstr (needle hay : String) : Bool :=
  decide (needle.data <:+: hay.data)

/-- Python's in operator: key test on dicts, element test on lists,
substring test on strings; TypeError otherwise. -/
def pyContains (v : JsonVal) (k : String) : Except Unit Bool :=
  match v with
  | .obj fs => .ok (lookupField fs k).isSome
  | .arr xs => .ok (xs.any fun x => x = .str k)
  | .str s => .ok (pySubstr k s)
  | _ => .error ()

/-- Python slicing [0:4]: defined on strings and lists, TypeError
otherwise. -/
def pySlice4 (v : JsonVal) : Except Unit JsonVal :=
  match v with
  | .str s => .ok (.str (s.take 4))
  | .arr xs => .ok (.arr (xs.take 4))
  | _ => .error ()

/-- An output collection (class Folder): display name and the ordered
song list. -/
structure Folder where
  name : JsonVal
  songs : List String
  deriving DecidableEq

/-- Python str.startswith: a character-level prefix test. -/
def pyStartsWith (s pre : String) : Bool :=
  pre.data.isPrefixOf s.data

/-- Folder.add_song: drop identifiers that do not start with the literal
spotify:track: prefix; .startswith on a non-string raises. -/
def addSong (songs : List String) (uriv : JsonVal) : Except Unit (List String) :=
  match asStr uriv with
  | .error e => .error e
  | .ok s => if pyStartsWith s "spotify:track:" then .ok (songs ++ [s]) else .ok songs

/-- Per-entry uri extraction: t['uri'] if 'uri' in t else t['track']['uri']. -/
def trackUri (t : JsonVal) : Except Unit JsonVal :=
  match pyContains t "uri" with
  | .error e => .error e
  | .ok true => jget t "uri"
  | .ok false =>
      match jget t "track" with
      | .error e => .error e
      | .ok tr => jget tr "uri"

/-- The folder-filling loop: extract each entry's uri and add_song it. -/
def collectSongs : List JsonVal → List String → Except Unit (List String)
  | [], songs => .ok songs
  | tk :: rest, songs =>
      match trackUri tk with
      | .error e => .error e
      | .ok uriv =>
          match addSong songs uriv with
          | .error e => .error e
          | .ok songs2 => collectSongs rest songs2

/-- Album display name: artists joined by comma-space, a dash, the album
name, and the first four characters of the release date in parentheses.
Joining a non-string artist name raises TypeError. -/
def albumFolderName (p : JsonVal) : Except Unit JsonVal :=
  match jget p "album" with
  | .error e => .error e
  | .ok al =>
      match jget al "artists" with
      | .error e => .error e
      | .ok artistsv =>
          match pyIter artistsv with
          | .error e => .error e
          | .ok arts =>
              match arts.mapM fun a => jget a "name" with
              | .error e => .error e
              | .ok names =>
                  match names.mapM asStr with
                  | .error e => .error e
                  | .ok nameStrs =>
                      match jget al "name" with
                      | .error e => .error e
                      | .ok anm =>
                          match jget al "release_date" with
                          | .error e => .error e
                          | .ok rd =>
                              match pySlice4 rd with
                              | .error e => .error e
                              | .ok rd4 =>
                                  .ok (.str (String.intercalate ", " nameStrs ++ " - "
                                        ++ pyStr anm ++ " (" ++ pyStr rd4 ++ ")"))

/-- The name/id filter: skip unless the lowered filter is a substring of
the lowered display name or the candidate's id equals the filter
exactly. -/
def filterSkip (f? : Option String) (nm : JsonVal) (p : JsonVal) : Except Unit Bool :=
  match f? with
  | none => .ok false
  | some flt =>
      match asStr nm with
      | .error e => .error e
      | .ok nms =>
          if pySubstr flt.toLower nms.toLower then .ok false
          else
            match pyContains p "id" with
            | .error e => .error e
            | .ok false => .ok true
            | .ok true =>
                match jget p "id" with
                | .error e => .error e
                | .ok idv => .ok (if idv = .str flt then false else true)

/-- The owner filter as written in the source: skip only when the
candidate has an owner key whose id differs from the requested owner. -/
def ownerSkip (o? : Option String) (p : JsonVal) : Except Unit Bool :=
  match o? with
  | none => .ok false
  | some ow =>
      match pyContains p "owner" with
      | .error e => .error e
      | .ok false => .ok false
      | .ok true =>
          match jget p "owner" with
          | .error e => .error e
          | .ok ov =>
              match jget ov "id" with
              | .error e => .error e
              | .ok oid => .ok (if oid = .str ow then false else true)

/-- Track list of a candidate: p['album']['tracks']['items'] for albums,
p['tracks'] for playlists. -/
def candidateTracksVal (is_album : Bool) (p : JsonVal) : Except Unit JsonVal :=
  if is_album then
    match jget p "album" with
    | .error e => .error e
    | .ok al =>
        match jget al "tracks" with
        | .error e => .error e
        | .ok tr => jget tr "items"
  else jget p "tracks"

/-- Collected song list of one candidate. -/
def candidateSongs (is_album : Bool) (p : JsonVal) : Except Unit (List String) :=
  match candidateTracksVal is_album p with
  | .error e => .error e
  | .ok tracksv =>
      match pyIter tracksv with
      | .error e => .error e
      | .ok tracks => collectSongs tracks []

/-- One iteration of the candidate loop: ok none means the candidate was
skipped by a filter or yielded no songs; ok (some folder) means it is
appended to the output. -/
def processCandidate (f? o? : Option String) (p : JsonVal) : Except Unit (Option Folder) :=
  match pyContains p "album" with
  | .error e => .error e
  | .ok is_album =>
      match (if is_album then albumFolderName p else jget p "name") with
      | .error e => .error e
      | .ok folder_name =>
          match filterSkip f? folder_name p with
          | .error e => .error e
          | .ok true => .ok none
          | .ok false =>
              match ownerSkip o? p with
              | .error e => .error e
              | .ok true => .ok none
              | .ok false =>
                  match candidateSongs is_album p with
                  | .error e => .error e
                  | .ok songs =>
                      if songs = [] then .ok none
                      else .ok (some ⟨folder_name, songs⟩)

/-- The candidate loop, accumulating appended folders in input order. -/
def flattenGo (f? o? : Option String) : List JsonVal → List Folder → Except Unit (List Folder)
  | [], acc => .ok acc
  | p :: ps, acc =>
      match processCandidate f? o? p with
      | .error e => .error e
      | .ok none => flattenGo f? o? ps acc
      | .ok (some fd) => flattenGo f? o? ps (acc ++ [fd])

/-- One optional top-level set: the named list when its flag is set. -/
def exportSet (doc : JsonVal) (k : String) (flag : Bool) : Except Unit (List JsonVal) :=
  if flag then
    match jget doc k with
    | .error e => .error e
    | .ok v => pyIter v
  else .ok []

/-- things_to_export: jsonobj['playlists'] and/or jsonobj['albums'],
playlists first. -/
def thingsToExport (doc : JsonVal) (playlists albums : Bool) : Except Unit (List JsonVal) :=
  match exportSet doc "playlists" playlists with
  | .error e => .error e
  | .ok pls =>
      match exportSet doc "albums" albums with
      | .error e => .error e
      | .ok als => .ok (pls ++ als)

/-- The whole flattening stage of generate_oggify.py, up to the folders
list (before presentation-layer sorting and script emission). -/
def flattenAll (doc : JsonVal) (playlists albums : Bool) (f? o? : Option String) :
    Except Unit (List Folder) :=
  match thingsToExport doc playlists albums with
  | .error e => .error e
  | .ok things => flattenGo f? o? things []

/-! ## Spec-side image choice (for comparison with selectImageList) -/

/-- Width of an image variant, for ordering variants by size. -/
def widthOf (v : JsonVal) : Int :=
  match v with
  | .obj fs =>
      match lookupField fs "width" with
      | some (.num n) => n
      | _ => 0
  | _ => 0

def insertByWidth (x : JsonVal) : List JsonVal → List JsonVal
  | [] => [x]
  | y :: ys => if widthOf x ≤ widthOf y then x :: y :: ys else y :: insertByWidth x ys

def sortByWidth (l : List JsonVal) : List JsonVal :=
  l.foldr insertByWidth []

/-- Whether a variant list is already in ascending size order. -/
def sortedByWidth : List JsonVal → Bool
  | [] => true
  | [_] => true
  | a :: b :: r => decide (widthOf a ≤ widthOf b) && sortedByWidth (b :: r)

/-- Modelled from the spec: the cover image descriptor is "the
second-smallest of the available image variants if more than one exists,
else the only one available, else absent". The source has no such
ordering step; this definition follows the spec's words (variants ordered
by ascending width) for comparison with selectImageList. -/
def secondSmallestImage (l : List JsonVal) : Option JsonVal :=
  match sortByWidth l with
  | _ :: b :: _ => some b
  | [a] => some a
  | [] => none

/-! ## Populated fields of a record -/

/-- The tag names the field loop may write for a given record: exactly
the record attributes that are not None. -/
def isPopulatedField (info : SpotifyInfo) (k : String) : Prop :=
  (k = "title" ∧ info.title.isSome = true) ∨
  (k = "artist" ∧ info.artist.isSome = true) ∨
  (k = "album" ∧ info.album.isSome = true) ∨
  (k = "tracknumber" ∧ info.tracknumber.isSome = true) ∨
  (k = "image" ∧ info.image.isSome = true) ∨
  (k = "year" ∧ info.year.isSome = true) ∨
  (k = "spotify_id" ∧ info.spotify_id.isSome = true)

instance (info : SpotifyInfo) (k : String) : Decidable (isPopulatedField info k) := by
  unfold isPopulatedField
  infer_instance

/-! ## Concrete inputs used by the closed theorems -/

/-- An environment whose image fetch always fails (raises). -/
def envNone : Env := ⟨fun _ => none, fun _ => "enc"⟩

/-- A record with only title and spotify_id populated. -/
def infoTitleOnly : SpotifyInfo :=
  { title := some (.str "T"), spotify_id := some (.str "x") }

def tagsEmpty : TagSet := fun _ => []

/-- The tag set reconcile produces from infoTitleOnly on an empty file. -/
def tagsAfter : TagSet :=
  setTag (setTag tagsEmpty "title" [.str "T"]) "spotify_id" [.str "x"]

/-- A tag set that already carries an embedded cover image. -/
def tagsPic : TagSet :=
  fun k => if k = "metadata_block_picture" then [.str "pic"] else []

/-- A tag set with an unrelated comment tag. -/
def tagsComment : TagSet := fun k => if k = "comment" then [.str "c"] else []

def tagsCommentAfter : TagSet :=
  setTag (setTag tagsComment "title" [.str "T"]) "spotify_id" [.str "x"]

/-- A well-formed raw entry reachable under the verbatim key
tracks/abc, to probe which key the resolver actually sends. -/
def c1entry : JsonVal :=
  .obj [("album", .obj [("images", .arr []), ("name", .str "A"),
                        ("release_date", .str "2020-01-01")]),
        ("track_number", .num 1),
        ("artists", .arr [.obj [("name", .str "Art")]]),
        ("name", .str "T")]

/-- A remote service that knows the track only under the verbatim path
tracks/abc. -/
def c1svc : RemoteService :=
  ⟨fun p _ => if p = "tracks/abc" then some c1entry else none⟩

/-- An album whose only track entry has no id field. -/
def c3albumObj : JsonVal :=
  .obj [("tracks", .obj [("items", .arr [.obj [("name", .str "t")]])]),
        ("name", .str "A")]

def c3doc : JsonVal := .obj [("albums", .arr [.obj [("album", c3albumObj)]])]

/-- The merged record the album pass builds from that id-less track. -/
def c3merged : JsonVal := .obj [("name", .str "t"), ("album", c3albumObj)]

/-- A document with a single-track match carrying an id. -/
def c3wtrack : JsonVal := .obj [("id", .str "a1"), ("name", .str "T")]

def c3wdoc : JsonVal := .obj [("track", c3wtrack)]

/-- A cache whose entry for x is an object with no album field. -/
def c5tagger : Tagger := ⟨[(some (.str "x"), .obj [])], none⟩

/-- A well-formed cache entry whose record has a cover image. -/
def c6entry : JsonVal :=
  .obj [("album", .obj [("images", .arr [.obj [("url", .str "u"), ("width", .num 10),
                                               ("height", .num 10)]]),
                        ("name", .str "A"),
                        ("release_date", .str "2020-01-01")]),
        ("track_number", .num 1),
        ("artists", .arr [.obj [("name", .str "Art")]]),
        ("name", .str "T")]

def c6tagger : Tagger := ⟨[(some (.str "x"), c6entry)], none⟩

/-- A file tag set linking to the cached track x, with no cover tag. -/
def tagsWithId : TagSet := fun k => if k = "spotify_id" then [.str "x"] else []

/-- The image descriptor inside c6entry. -/
def c6img : JsonVal :=
  .obj [("url", .str "u"), ("width", .num 10), ("height", .num 10)]

/-- The record the resolver builds from c6entry. -/
def c6info : SpotifyInfo :=
  { title := some (.str "T"), artist := some [.str "Art"], album := some (.str "A"),
    tracknumber := some (.str "1"), image := some c6img, year := some (.str "2020"),
    spotify_id := some (.str "x") }

/-- A playlist candidate with no owner field. -/
def c7cand : JsonVal :=
  .obj [("name", .str "P"),
        ("tracks", .arr [.obj [("uri", .str "spotify:track:t1")]])]

def c7folder : Folder := ⟨.str "P", ["spotify:track:t1"]⟩

/-- A playlist candidate owned by alice. -/
def c7owned : JsonVal :=
  .obj [("name", .str "Q"), ("owner", .obj [("id", .str "alice")]),
        ("tracks", .arr [.obj [("uri", .str "spotify:track:t2")]])]

/-- An image variant of a given width. -/
def imgOfWidth (w : Int) : JsonVal :=
  .obj [("url", .str "u"), ("width", .num w), ("height", .num w)]

/-- Variants listed in descending size order, as the live service
returns them. -/
def imgsDescending : List JsonVal := [imgOfWidth 30, imgOfWidth 10]

/-- Variants listed in ascending size order. -/
def imgsAscending : List JsonVal := [imgOfWidth 10, imgOfWidth 30]

/-- A playlist document for exercising the flattener. -/
def c10doc : JsonVal :=
  .obj [("playlists", .arr
          [.obj [("name", .str "P"),
                 ("tracks", .arr [.obj [("uri", .str "spotify:track:t1")],
                                  .obj [("uri", .str "local:file:t2")]])]])]

def c10folder : Folder := ⟨.str "P", ["spotify:track:t1"]⟩

/-! ## Lemmas about the tag reconciler -/

theorem setTag_self (t : TagSet) (k : String) (v : List JsonVal) : setTag t k v k = v := by
  simp [setTag]

theorem setTag_ne (t : TagSet) (k k' : String) (v : List JsonVal) (h : k' ≠ k) :
    setTag t k v k' = t k' := by
  simp [setTag, h]

theorem stepScalarP_fst_skip {name : String} {val : Option (List JsonVal)}
    {s : TagSet × Bool} {k : String} (h : val = none ∨ k ≠ name) :
    (stepScalarP name val s).1 k = s.1 k := by
  cases val with
  | none => rfl
  | some arr =>
      rcases h with h | h
      · simp at h
      · unfold stepScalarP stepScalar
        by_cases hg : arr = s.1 name
        · simp [hg]
        · simp only [hg, if_false]
          exact setTag_ne _ _ _ _ h

theorem stepScalarP_fst_self {name : String} {arr : List JsonVal} {s : TagSet × Bool} :
    (stepScalarP name (some arr) s).1 name = arr := by
  unfold stepScalarP stepScalar
  by_cases hg : arr = s.1 name
  · simp [hg]
  · simp only [hg, if_false]
    exact setTag_self _ _ _

theorem stepScalarP_noop {name : String} {val : Option (List JsonVal)}
    {s : TagSet × Bool} (h : ∀ arr, val = some arr → arr = s.1 name) :
    stepScalarP name val s = s := by
  cases val with
  | none => rfl
  | some arr =>
      unfold stepScalarP stepScalar
      simp [h arr rfl]

theorem stepImage_present {env : Env} {img? : Option JsonVal} {t : TagSet} {c : Bool}
    (h : t "metadata_block_picture" ≠ []) :
    stepImage env img? t c = .ok (t, c, 0) := by
  cases img? with
  | none => rfl
  | some img =>
      simp only [stepImage]
      rw [if_neg h]

theorem stepImage_ok_fst_ne {env : Env} {img? : Option JsonVal} {t : TagSet} {c : Bool}
    {t2 : TagSet} {c2 : Bool} {n : Nat} {k : String}
    (h : stepImage env img? t c = .ok (t2, c2, n)) (hk : k ≠ "metadata_block_picture") :
    t2 k = t k := by
  cases img? with
  | none =>
      simp only [stepImage, Except.ok.injEq, Prod.mk.injEq] at h
      rw [← h.1]
  | some img =>
      simp only [stepImage] at h
      by_cases hm : t "metadata_block_picture" = []
      · rw [if_pos hm] at h
        cases hu : jget img "url" with
        | error e => simp [hu] at h
        | ok url =>
            cases hw : jget img "width" with
            | error e => simp [hu, hw] at h
            | ok w =>
                cases hh : jget img "height" with
                | error e => simp [hu, hw, hh] at h
                | ok hv =>
                    cases hf : env.fetch url with
                    | none => simp [hu, hw, hh, hf] at h
                    | some r =>
                        simp only [hu, hw, hh, hf, Except.ok.injEq,
                          Prod.mk.injEq] at h
                        rw [← h.1]
                        exact setTag_ne _ _ _ _ hk
      · rw [if_neg hm] at h
        simp only [Except.ok.injEq, Prod.mk.injEq] at h
        rw [← h.1]

theorem stepImage_ok_mbp {env : Env} {img : JsonVal} {t : TagSet} {c : Bool}
    {t2 : TagSet} {c2 : Bool} {n : Nat}
    (h : stepImage env (some img) t c = .ok (t2, c2, n)) :
    t2 "metadata_block_picture" ≠ [] := by
  simp only [stepImage] at h
  by_cases hm : t "metadata_block_picture" = []
  · rw [if_pos hm] at h
    cases hu : jget img "url" with
    | error e => simp [hu] at h
    | ok url =>
        cases hw : jget img "width" with
        | error e => simp [hu, hw] at h
        | ok w =>
            cases hh : jget img "height" with
            | error e => simp [hu, hw, hh] at h
            | ok hv =>
                cases hf : env.fetch url with
                | none => simp [hu, hw, hh, hf] at h
                | some r =>
                    simp only [hu, hw, hh, hf, Except.ok.injEq,
                      Prod.mk.injEq] at h
                    rw [← h.1, setTag_self]
                    simp
  · rw [if_neg hm] at h
    simp only [Except.ok.injEq, Prod.mk.injEq] at h
    rw [← h.1]
    exact hm

theorem reconcile_ok_inv {env : Env} {info : SpotifyInfo} {t t' : TagSet} {c : Bool} {n : Nat}
    (h : reconcile env info t = .ok (t', c, n)) :
    ∃ t5 c5,
      stepImage env info.image (reconcilePre info t).1 (reconcilePre info t).2 =
          .ok (t5, c5, n) ∧
      t' = (reconcilePost info (t5, c5)).1 ∧ c = (reconcilePost info (t5, c5)).2 := by
  unfold reconcile at h
  cases hi : stepImage env info.image (reconcilePre info t).1 (reconcilePre info t).2 with
  | error e => rw [hi] at h; exact absurd h (by simp)
  | ok v =>
      obtain ⟨t5, c5, n5⟩ := v
      rw [hi] at h
      simp only [Except.ok.injEq, Prod.mk.injEq] at h
      obtain ⟨h1, h2, h3⟩ := h
      subst h3
      exact ⟨t5, c5, rfl, h1.symm, h2.symm⟩

theorem reconcilePre_fst_ne {info : SpotifyInfo} {t : TagSet} {k : String}
    (h1 : k ≠ "title") (h2 : k ≠ "artist") (h3 : k ≠ "album") (h4 : k ≠ "tracknumber") :
    (reconcilePre info t).1 k = t k := by
  unfold reconcilePre
  rw [stepScalarP_fst_skip (Or.inr h4), stepScalarP_fst_skip (Or.inr h3),
      stepScalarP_fst_skip (Or.inr h2), stepScalarP_fst_skip (Or.inr h1)]

theorem reconcilePre_fst_title {info : SpotifyInfo} {t : TagSet} {v : JsonVal}
    (h : info.title = some v) : (reconcilePre info t).1 "title" = [v] := by
  unfold reconcilePre
  rw [stepScalarP_fst_skip (Or.inr (by decide)), stepScalarP_fst_skip (Or.inr (by decide)),
      stepScalarP_fst_skip (Or.inr (by decide)), h]
  exact stepScalarP_fst_self

theorem reconcilePre_fst_artist {info : SpotifyInfo} {t : TagSet} {l : List JsonVal}
    (h : info.artist = some l) : (reconcilePre info t).1 "artist" = l := by
  unfold reconcilePre
  rw [stepScalarP_fst_skip (Or.inr (by decide)), stepScalarP_fst_skip (Or.inr (by decide)), h]
  exact stepScalarP_fst_self

theorem reconcilePre_fst_album {info : SpotifyInfo} {t : TagSet} {v : JsonVal}
    (h : info.album = some v) : (reconcilePre info t).1 "album" = [v] := by
  unfold reconcilePre
  rw [stepScalarP_fst_skip (Or.inr (by decide)), h]
  exact stepScalarP_fst_self

theorem reconcilePre_fst_tracknumber {info : SpotifyInfo} {t : TagSet} {v : JsonVal}
    (h : info.tracknumber = some v) : (reconcilePre info t).1 "tracknumber" = [v] := by
  unfold reconcilePre
  rw [h]
  exact stepScalarP_fst_self

theorem reconcilePost_fst_ne {info : SpotifyInfo} {s : TagSet × Bool} {k : String}
    (h1 : k ≠ "year") (h2 : k ≠ "spotify_id") :
    (reconcilePost info s).1 k = s.1 k := by
  unfold reconcilePost
  rw [stepScalarP_fst_skip (Or.inr h2), stepScalarP_fst_skip (Or.inr h1)]

theorem reconcilePost_fst_year {info : SpotifyInfo} {s : TagSet × Bool} {v : JsonVal}
    (h : info.year = some v) : (reconcilePost info s).1 "year" = [v] := by
  unfold reconcilePost
  rw [stepScalarP_fst_skip (Or.inr (by decide)), h]
  exact stepScalarP_fst_self

theorem reconcilePost_fst_sid {info : SpotifyInfo} {s : TagSet × Bool} {v : JsonVal}
    (h : info.spotify_id = some v) : (reconcilePost info s).1 "spotify_id" = [v] := by
  unfold reconcilePost
  rw [h]
  exact stepScalarP_fst_self

theorem stepScalarP_noop_mapped {name : String} {f : Option JsonVal} {s : TagSet × Bool}
    (h : ∀ v, f = some v → s.1 name = [v]) :
    stepScalarP name (f.map fun v => [v]) s = s := by
  cases f with
  | none => rfl
  | some v =>
      refine stepScalarP_noop ?_
      intro arr harr
      have h2 : [v] = arr := by injection harr
      rw [← h2]
      exact (h v rfl).symm

theorem reconcilePre_noop {info : SpotifyInfo} {t : TagSet}
    (ht : ∀ v, info.title = some v → t "title" = [v])
    (ha : ∀ l, info.artist = some l → t "artist" = l)
    (hal : ∀ v, info.album = some v → t "album" = [v])
    (htn : ∀ v, info.tracknumber = some v → t "tracknumber" = [v]) :
    reconcilePre info t = (t, false) := by
  have e1 : stepScalarP "title" (info.title.map fun v => [v]) (t, false) = (t, false) :=
    stepScalarP_noop_mapped ht
  have e2 : stepScalarP "artist" info.artist (t, false) = (t, false) :=
    stepScalarP_noop fun arr harr => (ha arr harr).symm
  have e3 : stepScalarP "album" (info.album.map fun v => [v]) (t, false) = (t, false) :=
    stepScalarP_noop_mapped hal
  have e4 : stepScalarP "tracknumber" (info.tracknumber.map fun v => [v]) (t, false) =
      (t, false) :=
    stepScalarP_noop_mapped htn
  unfold reconcilePre
  rw [e1, e2, e3, e4]

theorem reconcilePost_noop {info : SpotifyInfo} {t : TagSet} {c : Bool}
    (hy : ∀ v, info.year = some v → t "year" = [v])
    (hs : ∀ v, info.spotify_id = some v → t "spotify_id" = [v]) :
    reconcilePost info (t, c) = (t, c) := by
  have e1 : stepScalarP "year" (info.year.map fun v => [v]) (t, c) = (t, c) :=
    stepScalarP_noop_mapped hy
  have e2 : stepScalarP "spotify_id" (info.spotify_id.map fun v => [v]) (t, c) = (t, c) :=
    stepScalarP_noop_mapped hs
  unfold reconcilePost
  rw [e1, e2]

theorem reconcile_fix {env : Env} {info : SpotifyInfo} {t : TagSet}
    (ht : ∀ v, info.title = some v → t "title" = [v])
    (ha : ∀ l, info.artist = some l → t "artist" = l)
    (hal : ∀ v, info.album = some v → t "album" = [v])
    (htn : ∀ v, info.tracknumber = some v → t "tracknumber" = [v])
    (hy : ∀ v, info.year = some v → t "year" = [v])
    (hs : ∀ v, info.spotify_id = some v → t "spotify_id" = [v])
    (hi : info.image = none ∨ t "metadata_block_picture" ≠ []) :
    reconcile env info t = .ok (t, false, 0) := by
  have hpre : reconcilePre info t = (t, false) := reconcilePre_noop ht ha hal htn
  have himg : stepImage env info.image t false = .ok (t, false, 0) := by
    rcases hi with h0 | hne
    · rw [h0]; rfl
    · exact stepImage_present hne
  have hpost : reconcilePost info (t, false) = (t, false) := reconcilePost_noop hy hs
  unfold reconcile
  rw [hpre]
  rw [show stepImage env info.image (t, false).1 (t, false).2 = .ok (t, false, 0) from himg]
  show Except.ok ((reconcilePost info (t, false)).1, (reconcilePost info (t, false)).2, 0) =
      .ok (t, false, 0)
  rw [hpost]

/-! ## Claims about the tag reconciler -/

/-- Claim C2: reconciliation is idempotent. For every non-absent track
record and tag set, if the field loop succeeds and returns an updated
tag set, then running it again on that updated tag set reports
changed = false, issues no fetch, and returns the tag set unchanged. -/
theorem c2_reconcile_idempotent (env : Env) (info : SpotifyInfo) (t t' : TagSet)
    (c : Bool) (n : Nat) (h : reconcile env info t = .ok (t', c, n)) :
    reconcile env info t' = .ok (t', false, 0) := by
  obtain ⟨t5, c5, himg, ht', hc⟩ := reconcile_ok_inv h
  have htitle : ∀ v, info.title = some v → t' "title" = [v] := by
    intro v hv
    have e1 : t' "title" = t5 "title" := by
      rw [ht']; exact reconcilePost_fst_ne (by decide) (by decide)
    have e2 : t5 "title" = (reconcilePre info t).1 "title" :=
      stepImage_ok_fst_ne himg (by decide)
    rw [e1, e2]
    exact reconcilePre_fst_title hv
  have hartist : ∀ l, info.artist = some l → t' "artist" = l := by
    intro l hl
    have e1 : t' "artist" = t5 "artist" := by
      rw [ht']; exact reconcilePost_fst_ne (by decide) (by decide)
    have e2 : t5 "artist" = (reconcilePre info t).1 "artist" :=
      stepImage_ok_fst_ne himg (by decide)
    rw [e1, e2]
    exact reconcilePre_fst_artist hl
  have halbum : ∀ v, info.album = some v → t' "album" = [v] := by
    intro v hv
    have e1 : t' "album" = t5 "album" := by
      rw [ht']; exact reconcilePost_fst_ne (by decide) (by decide)
    have e2 : t5 "album" = (reconcilePre info t).1 "album" :=
      stepImage_ok_fst_ne himg (by decide)
    rw [e1, e2]
    exact reconcilePre_fst_album hv
  have htrack : ∀ v, info.tracknumber = some v → t' "tracknumber" = [v] := by
    intro v hv
    have e1 : t' "tracknumber" = t5 "tracknumber" := by
      rw [ht']; exact reconcilePost_fst_ne (by decide) (by decide)
    have e2 : t5 "tracknumber" = (reconcilePre info t).1 "tracknumber" :=
      stepImage_ok_fst_ne himg (by decide)
    rw [e1, e2]
    exact reconcilePre_fst_tracknumber hv
  have hyear : ∀ v, info.year = some v → t' "year" = [v] := by
    intro v hv
    rw [ht']
    exact reconcilePost_fst_year hv
  have hsid : ∀ v, info.spotify_id = some v → t' "spotify_id" = [v] := by
    intro v hv
    rw [ht']
    exact reconcilePost_fst_sid hv
  have hmbp : info.image = none ∨ t' "metadata_block_picture" ≠ [] := by
    cases hI : info.image with
    | none => exact Or.inl rfl
    | some img =>
        right
        have e1 : t' "metadata_block_picture" = t5 "metadata_block_picture" := by
          rw [ht']; exact reconcilePost_fst_ne (by decide) (by decide)
        rw [e1]
        rw [hI] at himg
        exact stepImage_ok_mbp himg
  exact reconcile_fix htitle hartist halbum htrack hyear hsid hmbp

/-- Witness for C2 at a concrete record and an initially empty tag
set: the first pass reports a change, the second pass is a no-op. -/
theorem c2_witness :
    reconcile envNone infoTitleOnly tagsEmpty = .ok (tagsAfter, true, 0) ∧
    reconcile envNone infoTitleOnly tagsAfter = .ok (tagsAfter, false, 0) :=
  ⟨rfl, c2_reconcile_idempotent envNone infoTitleOnly tagsEmpty tagsAfter true 0 rfl⟩

/-- Claim C4: when the file already carries a non-empty cover-image tag,
reconciliation succeeds with zero image fetches and leaves the
cover-image tag exactly as it was, whatever the record's image field
holds. -/
theorem c4_existing_cover_untouched (env : Env) (info : SpotifyInfo) (t : TagSet)
    (h : t "metadata_block_picture" ≠ []) :
    ∃ t' c, reconcile env info t = .ok (t', c, 0) ∧
      t' "metadata_block_picture" = t "metadata_block_picture" := by
  have hpre : (reconcilePre info t).1 "metadata_block_picture" =
      t "metadata_block_picture" :=
    reconcilePre_fst_ne (by decide) (by decide) (by decide) (by decide)
  have hne : (reconcilePre info t).1 "metadata_block_picture" ≠ [] := by
    rw [hpre]; exact h
  have himg : stepImage env info.image (reconcilePre info t).1 (reconcilePre info t).2 =
      .ok ((reconcilePre info t).1, (reconcilePre info t).2, 0) :=
    stepImage_present hne
  refine ⟨(reconcilePost info ((reconcilePre info t).1, (reconcilePre info t).2)).1,
          (reconcilePost info ((reconcilePre info t).1, (reconcilePre info t).2)).2,
          ?_, ?_⟩
  · unfold reconcile
    rw [himg]
  · rw [reconcilePost_fst_ne (by decide) (by decide)]
    exact hpre

/-- Witness for C4: a concrete tag set with an existing cover image. -/
theorem c4_witness :
    tagsPic "metadata_block_picture" ≠ [] ∧
    ∃ t' c, reconcile envNone infoTitleOnly tagsPic = .ok (t', c, 0) ∧
      t' "metadata_block_picture" = tagsPic "metadata_block_picture" :=
  ⟨by decide, c4_existing_cover_untouched envNone infoTitleOnly tagsPic (by decide)⟩

/-- Claim C9: frame property. A tag present in the input tag set whose
name is not one of the record's populated fields keeps exactly its prior
value across a successful reconciliation. -/
theorem c9_frame (env : Env) (info : SpotifyInfo) (t t' : TagSet) (c : Bool) (n : Nat)
    (k : String) (h : reconcile env info t = .ok (t', c, n))
    (hk : ¬ isPopulatedField info k) (hin : t k ≠ []) : t' k = t k := by
  obtain ⟨t5, c5, himg, ht', hc⟩ := reconcile_ok_inv h
  have dT : (info.title.map fun v => [v]) = none ∨ k ≠ "title" := by
    cases hT : info.title with
    | none => exact Or.inl rfl
    | some v =>
        exact Or.inr fun he => hk (Or.inl ⟨he, by rw [hT]; rfl⟩)
  have dA : info.artist = none ∨ k ≠ "artist" := by
    cases hT : info.artist with
    | none => exact Or.inl rfl
    | some l =>
        exact Or.inr fun he => hk (Or.inr (Or.inl ⟨he, by rw [hT]; rfl⟩))
  have dAl : (info.album.map fun v => [v]) = none ∨ k ≠ "album" := by
    cases hT : info.album with
    | none => exact Or.inl rfl
    | some v =>
        exact Or.inr fun he => hk (Or.inr (Or.inr (Or.inl ⟨he, by rw [hT]; rfl⟩)))
  have dTn : (info.tracknumber.map fun v => [v]) = none ∨ k ≠ "tracknumber" := by
    cases hT : info.tracknumber with
    | none => exact Or.inl rfl
    | some v =>
        exact Or.inr fun he =>
          hk (Or.inr (Or.inr (Or.inr (Or.inl ⟨he, by rw [hT]; rfl⟩))))
  have dY : (info.year.map fun v => [v]) = none ∨ k ≠ "year" := by
    cases hT : info.year with
    | none => exact Or.inl rfl
    | some v =>
        exact Or.inr fun he =>
          hk (Or.inr (Or.inr (Or.inr (Or.inr (Or.inr (Or.inl ⟨he, by rw [hT]; rfl⟩))))))
  have dS : (info.spotify_id.map fun v => [v]) = none ∨ k ≠ "spotify_id" := by
    cases hT : info.spotify_id with
    | none => exact Or.inl rfl
    | some v =>
        exact Or.inr fun he =>
          hk (Or.inr (Or.inr (Or.inr (Or.inr (Or.inr (Or.inr ⟨he, by rw [hT]; rfl⟩))))))
  have hpre : (reconcilePre info t).1 k = t k := by
    unfold reconcilePre
    rw [stepScalarP_fst_skip dTn, stepScalarP_fst_skip dAl,
        stepScalarP_fst_skip dA, stepScalarP_fst_skip dT]
  have h5 : t5 k = t k := by
    by_cases hm : k = "metadata_block_picture"
    · subst hm
      have hne : (reconcilePre info t).1 "metadata_block_picture" ≠ [] := by
        rw [hpre]; exact hin
      have hstep : stepImage env info.image (reconcilePre info t).1
          (reconcilePre info t).2 =
          .ok ((reconcilePre info t).1, (reconcilePre info t).2, 0) :=
        stepImage_present hne
      rw [hstep] at himg
      simp only [Except.ok.injEq, Prod.mk.injEq] at himg
      rw [← himg.1]
      exact hpre
    · rw [stepImage_ok_fst_ne himg hm]
      exact hpre
  have hpost : (reconcilePost info (t5, c5)).1 k = t5 k := by
    unfold reconcilePost
    rw [stepScalarP_fst_skip dS, stepScalarP_fst_skip dY]
  rw [ht', hpost, h5]

/-- Witness for C9: a comment tag survives reconciliation of a record
that does not mention it. -/
theorem c9_witness :
    reconcile envNone infoTitleOnly tagsComment = .ok (tagsCommentAfter, true, 0) ∧
    ¬ isPopulatedField infoTitleOnly "comment" ∧
    tagsComment "comment" ≠ [] ∧
    tagsCommentAfter "comment" = tagsComment "comment" :=
  ⟨rfl, by decide, by decide,
    c9_frame envNone infoTitleOnly tagsComment tagsCommentAfter true 0 "comment" rfl
      (by decide) (by decide)⟩

/-! ## Claims about the Index Builder and Track Resolver -/

theorem cacheInsert_mem {c : Cache} {k0 : Option JsonVal} {v0 : JsonVal}
    {p : Option JsonVal × JsonVal} (hp : p ∈ cacheInsert c k0 v0) :
    p ∈ c ∨ p = (k0, v0) := by
  unfold cacheInsert at hp
  rcases List.mem_append.mp hp with h | h
  · exact Or.inl h
  · right
    simpa using h

theorem pass1_inv : ∀ (l : List JsonVal) (c : Cache),
    (∀ p ∈ c, p.1 = pyKeyVal p.2 "id") →
    ∀ p ∈ pass1 l c, p.1 = pyKeyVal p.2 "id" := by
  intro l
  induction l with
  | nil => intro c hc p hp; exact hc p hp
  | cons m rest ih =>
      intro c hc p hp
      refine ih _ ?_ p hp
      intro q hq
      rcases cacheInsert_mem hq with h | h
      · exact hc q h
      · rw [h]

theorem pass2Tracks_inv : ∀ (l : List JsonVal) (a : JsonVal) (c c2 : Cache),
    pass2Tracks a l c = .ok c2 →
    (∀ p ∈ c, p.1 = pyKeyVal p.2 "id") →
    ∀ p ∈ c2, p.1 = pyKeyVal p.2 "id" := by
  intro l
  induction l with
  | nil =>
      intro a c c2 h hc p hp
      simp only [pass2Tracks, Except.ok.injEq] at h
      subst h
      exact hc p hp
  | cons tk rest ih =>
      intro a c c2 h hc p hp
      cases tk with
      | obj fs =>
          refine ih a _ c2 h ?_ p hp
          intro q hq
          rcases cacheInsert_mem hq with h' | h'
          · exact hc q h'
          · rw [h']
      | null => simp [pass2Tracks] at h
      | str sv => simp [pass2Tracks] at h
      | num nv => simp [pass2Tracks] at h
      | arr xs => simp [pass2Tracks] at h

theorem pass2Albums_inv : ∀ (l : List JsonVal) (c c2 : Cache),
    pass2Albums l c = .ok c2 →
    (∀ p ∈ c, p.1 = pyKeyVal p.2 "id") →
    ∀ p ∈ c2, p.1 = pyKeyVal p.2 "id" := by
  intro l
  induction l with
  | nil =>
      intro c c2 h hc
      simp only [pass2Albums, Except.ok.injEq] at h
      subst h
      exact hc
  | cons m rest ih =>
      intro c c2 h hc
      cases h1 : jget m "tracks" with
      | error e => simp [pass2Albums, h1] at h
      | ok tracksv =>
          cases h2 : jget tracksv "items" with
          | error e => simp [pass2Albums, h1, h2] at h
          | ok itemsv =>
              cases h3 : pyIter itemsv with
              | error e => simp [pass2Albums, h1, h2, h3] at h
              | ok items =>
                  cases h4 : pass2Tracks m items c with
                  | error e => simp [pass2Albums, h1, h2, h3, h4] at h
                  | ok cmid =>
                      simp only [pass2Albums, h1, h2, h3, h4] at h
                      exact ih cmid c2 h (pass2Tracks_inv items m c cmid h4 hc)

/-- Claim C3 counterexample: the album-track pass does record an
identifier-less track entry — under the Python key None — so the output
mapping is not empty of entries derived from it. -/
theorem c3_counterexample :
    pyHasField (.obj [("name", .str "t")]) "id" = false ∧
    buildTrackCache c3doc = .ok [(none, c3merged)] :=
  ⟨rfl, rfl⟩

/-- Claim C3 (amended): every index entry is keyed by exactly the
Python value of its record's id field (None when missing or null), so a
track entry lacking an identifier is skipped by the single-track pass
and can only ever be recorded under the absent key, never under a
present identifier key. -/
theorem c3_key_matches_id (doc : JsonVal) (c : Cache) (k : Option JsonVal) (e : JsonVal)
    (h : buildTrackCache doc = .ok c) (hm : (k, e) ∈ c) : k = pyKeyVal e "id" := by
  have h1 : ∀ p ∈ pass1 (trackMatches doc) ([] : Cache), p.1 = pyKeyVal p.2 "id" :=
    pass1_inv _ _ (by intro p hp; simp at hp)
  exact pass2Albums_inv (albumMatches doc) _ c h h1 (k, e) hm

/-- Witness for C3 at a concrete document with one identified track. -/
theorem c3_witness :
    buildTrackCache c3wdoc = .ok [(some (.str "a1"), c3wtrack)] ∧
    some (JsonVal.str "a1") = pyKeyVal c3wtrack "id" :=
  ⟨rfl,
    c3_key_matches_id c3wdoc [(some (.str "a1"), c3wtrack)] (some (.str "a1")) c3wtrack
      rfl (by simp)⟩

/-- Claim C5 counterexample: resolution of an identifier whose cached
entry lacks the album field raises an uncaught KeyError to the caller
instead of returning absent. -/
theorem c5_counterexample : get_spotify_info c5tagger (.str "x") = .error () := rfl

/-- Claim C5 (amended): resolution returns absent without raising when
the identifier is missing from the index and the remote lookup is
unavailable or fails (its failure is caught and logged); but a cached or
fetched entry missing expected fields raises an uncaught error. -/
theorem c5_remote_failure_absent (tg : Tagger) (idv : JsonVal)
    (h1 : cacheLookup tg.cache (some idv) = none)
    (h2 : ∀ svc, tg.spotify = some svc →
      svc.get (remoteRequestPath (pyStr idv)) 2 = none) :
    get_spotify_info tg idv = .ok none := by
  cases hs : tg.spotify with
  | none => simp [get_spotify_info, h1, hs]
  | some svc => simp [get_spotify_info, h1, hs, h2 svc hs]

/-- Witness for C5 with an empty index and no remote service. -/
theorem c5_witness :
    cacheLookup ([] : Cache) (some (.str "y")) = none ∧
    get_spotify_info ⟨[], none⟩ (.str "y") = .ok none :=
  ⟨rfl,
    c5_remote_failure_absent ⟨[], none⟩ (.str "y") rfl
      (fun _ h => Option.noConfusion h)⟩

/-! ## Claims about reconciliation failure handling -/

/-- Claim C6 counterexample: with a failing image fetch, the run aborts
at the first file with an uncaught error — the second file, which on its
own would be processed fine, is never reached. -/
theorem c6_counterexample :
    processFiles c6tagger envNone [tagsWithId, tagsEmpty] = .error () ∧
    write_tags c6tagger envNone tagsEmpty = .ok (tagsEmpty, false) :=
  ⟨rfl, rfl⟩

/-- Claim C6 (amended): whenever the cover-image fetch fails during
reconciliation of a file, no changes are committed to that file's tag
set, but the failure propagates as an uncaught exception: write_tags
raises and the file loop terminates instead of proceeding to the next
file. -/
theorem c6_fetch_failure_aborts (tg : Tagger) (env : Env) (t : TagSet)
    (ts : List TagSet) (idv : JsonVal) (l : List JsonVal) (info : SpotifyInfo)
    (img url wv hv : JsonVal)
    (h1 : t "spotify_id" = idv :: l)
    (h2 : get_spotify_info tg idv = .ok (some info))
    (h3 : info.image = some img)
    (h4 : t "metadata_block_picture" = [])
    (h5 : jget img "url" = .ok url)
    (h6 : jget img "width" = .ok wv)
    (h7 : jget img "height" = .ok hv)
    (h8 : env.fetch url = none) :
    write_tags tg env t = .error () ∧ processFiles tg env (t :: ts) = .error () := by
  have hpre : (reconcilePre info t).1 "metadata_block_picture" = [] := by
    rw [reconcilePre_fst_ne (by decide) (by decide) (by decide) (by decide)]
    exact h4
  have hstep : stepImage env (some img) (reconcilePre info t).1
      (reconcilePre info t).2 = .error () := by
    simp [stepImage, hpre, h5, h6, h7, h8]
  have hrec : reconcile env info t = .error () := by
    unfold reconcile
    rw [h3, hstep]
  have hwt : write_tags tg env t = .error () := by
    simp only [write_tags, h1, h2, hrec]
  exact ⟨hwt, by simp only [processFiles, hwt]⟩

/-- Witness for C6 at a concrete cached track with an image and a file
lacking a cover tag. -/
theorem c6_witness :
    get_spotify_info c6tagger (.str "x") = .ok (some c6info) ∧
    (write_tags c6tagger envNone tagsWithId = .error () ∧
     processFiles c6tagger envNone (tagsWithId :: [tagsEmpty]) = .error ()) :=
  ⟨rfl,
    c6_fetch_failure_aborts c6tagger envNone tagsWithId [tagsEmpty] (.str "x") []
      c6info c6img (.str "u") (.num 10) (.num 10) rfl rfl rfl rfl rfl rfl rfl rfl⟩

/-! ## Claims about the Export Flattener -/

theorem processCandidate_inv {f? o? : Option String} {p : JsonVal} {fd : Folder}
    (h : processCandidate f? o? p = .ok (some fd)) :
    ∃ is_album nm songs,
      pyContains p "album" = .ok is_album ∧
      (if is_album then albumFolderName p else jget p "name") = .ok nm ∧
      filterSkip f? nm p = .ok false ∧
      ownerSkip o? p = .ok false ∧
      candidateSongs is_album p = .ok songs ∧
      songs ≠ [] ∧ fd = ⟨nm, songs⟩ := by
  cases h1 : pyContains p "album" with
  | error e => simp [processCandidate, h1] at h
  | ok is_album =>
      cases h2 : (if is_album then albumFolderName p else jget p "name") with
      | error e => simp [processCandidate, h1, h2] at h
      | ok nm =>
          cases h3 : filterSkip f? nm p with
          | error e => simp [processCandidate, h1, h2, h3] at h
          | ok b1 =>
              cases b1 with
              | true => simp [processCandidate, h1, h2, h3] at h
              | false =>
                  cases h4 : ownerSkip o? p with
                  | error e => simp [processCandidate, h1, h2, h3, h4] at h
                  | ok b2 =>
                      cases b2 with
                      | true => simp [processCandidate, h1, h2, h3, h4] at h
                      | false =>
                          cases h5 : candidateSongs is_album p with
                          | error e =>
                              simp [processCandidate, h1, h2, h3, h4, h5] at h
                          | ok songs =>
                              simp only [processCandidate, h1, h2, h3, h4, h5] at h
                              by_cases h6 : songs = []
                              · rw [if_pos h6] at h; simp at h
                              · rw [if_neg h6] at h
                                simp only [Except.ok.injEq, Option.some.injEq] at h
                                exact ⟨is_album, nm, songs, rfl, h2, h3, rfl, h5, h6,
                                  h.symm⟩

theorem addSong_keeps {songs : List String} {uriv : JsonVal} {songs2 : List String}
    (h : addSong songs uriv = .ok songs2)
    (hall : ∀ s ∈ songs, pyStartsWith s "spotify:track:" = true) :
    ∀ s ∈ songs2, pyStartsWith s "spotify:track:" = true := by
  cases hu : asStr uriv with
  | error e => simp [addSong, hu] at h
  | ok sv =>
      simp only [addSong, hu] at h
      by_cases hp : pyStartsWith sv "spotify:track:" = true
      · rw [if_pos hp] at h
        simp only [Except.ok.injEq] at h
        subst h
        intro s hs
        rcases List.mem_append.mp hs with h' | h'
        · exact hall s h'
        · rw [List.mem_singleton.mp h']
          exact hp
      · rw [if_neg hp] at h
        simp only [Except.ok.injEq] at h
        subst h
        exact hall

theorem collectSongs_keeps : ∀ (l : List JsonVal) (songs out : List String),
    collectSongs l songs = .ok out →
    (∀ s ∈ songs, pyStartsWith s "spotify:track:" = true) →
    ∀ s ∈ out, pyStartsWith s "spotify:track:" = true := by
  intro l
  induction l with
  | nil =>
      intro songs out h hall
      simp only [collectSongs, Except.ok.injEq] at h
      subst h
      exact hall
  | cons tk rest ih =>
      intro songs out h hall
      cases h1 : trackUri tk with
      | error e => simp [collectSongs, h1] at h
      | ok uriv =>
          cases h2 : addSong songs uriv with
          | error e => simp [collectSongs, h1, h2] at h
          | ok songs2 =>
              simp only [collectSongs, h1, h2] at h
              exact ih songs2 out h (addSong_keeps h2 hall)

theorem processCandidate_some_props {f? o? : Option String} {p : JsonVal} {fd : Folder}
    (h : processCandidate f? o? p = .ok (some fd)) :
    fd.songs ≠ [] ∧ ∀ s ∈ fd.songs, pyStartsWith s "spotify:track:" = true := by
  obtain ⟨ia, nm, songs, h1, h2, h3, h4, h5, h6, h7⟩ := processCandidate_inv h
  subst h7
  refine ⟨h6, ?_⟩
  cases ht : candidateTracksVal ia p with
  | error e => simp [candidateSongs, ht] at h5
  | ok tracksv =>
      cases hit : pyIter tracksv with
      | error e => simp [candidateSongs, ht, hit] at h5
      | ok tracks =>
          simp only [candidateSongs, ht, hit] at h5
          exact collectSongs_keeps tracks [] songs h5 (by intro s hs; simp at hs)

theorem flattenGo_prop : ∀ (ps : List JsonVal) (acc folders : List Folder)
    (f? o? : Option String),
    flattenGo f? o? ps acc = .ok folders →
    (∀ fd ∈ acc, fd.songs ≠ [] ∧
      ∀ s ∈ fd.songs, pyStartsWith s "spotify:track:" = true) →
    ∀ fd ∈ folders, fd.songs ≠ [] ∧
      ∀ s ∈ fd.songs, pyStartsWith s "spotify:track:" = true := by
  intro ps
  induction ps with
  | nil =>
      intro acc folders f? o? h hacc
      simp only [flattenGo, Except.ok.injEq] at h
      subst h
      exact hacc
  | cons p rest ih =>
      intro acc folders f? o? h hacc
      cases h1 : processCandidate f? o? p with
      | error e => simp [flattenGo, h1] at h
      | ok r =>
          cases r with
          | none =>
              simp only [flattenGo, h1] at h
              exact ih acc folders f? o? h hacc
          | some fd2 =>
              simp only [flattenGo, h1] at h
              refine ih _ folders f? o? h ?_
              intro fd hfd
              rcases List.mem_append.mp hfd with h' | h'
              · exact hacc fd h'
              · rw [List.mem_singleton.mp h']
                exact processCandidate_some_props h1

/-- Claim C10: every track identifier in any flattened collection starts
with the literal spotify:track: prefix (entries with other URIs are
silently dropped by add_song) and no flattened collection is empty (a
candidate whose entries were all dropped is omitted). -/
theorem c10_prefix_invariant (doc : JsonVal) (pl al : Bool) (f? o? : Option String)
    (folders : List Folder) (h : flattenAll doc pl al f? o? = .ok folders) :
    ∀ fd ∈ folders, fd.songs ≠ [] ∧
      ∀ s ∈ fd.songs, pyStartsWith s "spotify:track:" = true := by
  cases ht : thingsToExport doc pl al with
  | error e => simp [flattenAll, ht] at h
  | ok things =>
      simp only [flattenAll, ht] at h
      exact flattenGo_prop things [] folders f? o? h (by intro fd hfd; simp at hfd)

/-- Witness for C10: a playlist with one spotify:track: uri and one
foreign uri flattens to a single one-song folder. -/
theorem c10_witness :
    flattenAll c10doc true false none none = .ok [c10folder] ∧
    (∀ fd ∈ [c10folder], fd.songs ≠ [] ∧
      ∀ s ∈ fd.songs, pyStartsWith s "spotify:track:" = true) :=
  ⟨rfl, c10_prefix_invariant c10doc true false none none [c10folder] rfl⟩

/-- Claim C7 counterexample: with an ownerFilter provided, a candidate
with no owner field is not skipped — it appears in the output. -/
theorem c7_counterexample :
    pyHasField c7cand "owner" = false ∧
    processCandidate none (some "alice") c7cand = .ok (some c7folder) :=
  ⟨rfl, rfl⟩

/-- Claim C7 (amended): with an ownerFilter, a candidate carrying an
owner whose id differs from the filter is skipped, but a candidate with
no owner field passes the owner check unfiltered; hence every flattened
candidate either has no owner field at all or has an owner id exactly
equal to the filter. -/
theorem c7_owner_filter (f? : Option String) (o : String) (p : JsonVal) (fd : Folder)
    (h : processCandidate f? (some o) p = .ok (some fd)) :
    ∃ fs, p = .obj fs ∧
      (lookupField fs "owner" = none ∨
       ∃ ov, lookupField fs "owner" = some ov ∧ jget ov "id" = .ok (.str o)) := by
  obtain ⟨ia, nm, songs, h1, h2, h3, h4, h5, h6, h7⟩ := processCandidate_inv h
  cases p with
  | null => simp [pyContains] at h1
  | num nv => simp [pyContains] at h1
  | str sv =>
      exfalso
      cases ia with
      | true => simp [albumFolderName, jget] at h2
      | false => simp [jget] at h2
  | arr xs =>
      exfalso
      cases ia with
      | true => simp [albumFolderName, jget] at h2
      | false => simp [jget] at h2
  | obj fs =>
      refine ⟨fs, rfl, ?_⟩
      cases hlo : lookupField fs "owner" with
      | none => exact Or.inl rfl
      | some ov =>
          right
          have hcont : pyContains (.obj fs) "owner" = .ok true := by
            simp [pyContains, hlo]
          have hjget : jget (.obj fs) "owner" = .ok ov := by
            simp [jget, hlo]
          cases hid : jget ov "id" with
          | error e => simp [ownerSkip, hcont, hjget, hid] at h4
          | ok oid =>
              simp only [ownerSkip, hcont, hjget, hid] at h4
              by_cases he : oid = .str o
              · exact ⟨ov, rfl, by rw [hid, he]⟩
              · rw [if_neg he] at h4
                simp at h4

/-- Witness for C7: a playlist owned by alice passes the owner filter
and indeed carries the matching owner id. -/
theorem c7_witness :
    processCandidate none (some "alice") c7owned =
        .ok (some ⟨.str "Q", ["spotify:track:t2"]⟩) ∧
    (∃ fs, c7owned = .obj fs ∧
      (lookupField fs "owner" = none ∨
       ∃ ov, lookupField fs "owner" = some ov ∧ jget ov "id" = .ok (.str "alice"))) :=
  ⟨rfl,
    c7_owner_filter none "alice" c7owned ⟨.str "Q", ["spotify:track:t2"]⟩ rfl⟩

/-! ## Claims about the cover image choice and the remote lookup key -/

theorem sortByWidth_sorted_fix : ∀ (l : List JsonVal),
    sortedByWidth l = true → sortByWidth l = l := by
  intro l
  induction l with
  | nil => intro h; rfl
  | cons a rest ih =>
      intro h
      cases rest with
      | nil => rfl
      | cons b r =>
          simp only [sortedByWidth, Bool.and_eq_true, decide_eq_true_eq] at h
          have h2 : sortByWidth (b :: r) = b :: r := ih h.2
          show insertByWidth a (sortByWidth (b :: r)) = a :: b :: r
          rw [h2]
          unfold insertByWidth
          rw [if_pos h.1]

/-- Claim C8 counterexample: with two variants listed in descending size
order the source picks the second listed variant — the smallest one —
not the second-smallest. -/
theorem c8_counterexample :
    selectImageList imgsDescending = some (imgOfWidth 10) ∧
    secondSmallestImage imgsDescending = some (imgOfWidth 30) ∧
    imgOfWidth 10 ≠ imgOfWidth 30 :=
  ⟨rfl, by decide, by decide⟩

/-- Claim C8 (amended): the cover descriptor is the variant at index 1
of the list as given (the second listed) when more than one exists, the
only one when exactly one exists, and absent when none; this equals the
second-smallest variant exactly when the list is already in ascending
size order. -/
theorem c8_sorted_second_smallest (l : List JsonVal) (h : sortedByWidth l = true) :
    selectImageList l = secondSmallestImage l := by
  have hfix : sortByWidth l = l := sortByWidth_sorted_fix l h
  unfold secondSmallestImage
  rw [hfix]
  cases l with
  | nil => rfl
  | cons a rest =>
      cases rest with
      | nil => rfl
      | cons b r => rfl

/-- Witness for C8 on an ascending variant list. -/
theorem c8_witness :
    sortedByWidth imgsAscending = true ∧
    selectImageList imgsAscending = secondSmallestImage imgsAscending :=
  ⟨by decide, c8_sorted_second_smallest imgsAscending (by decide)⟩

/-- Claim C1 (code bug): the resolver's remote lookup key is not the
identifier verbatim — the source appends a stray literal aa to it, so a
service holding the track under the verbatim key tracks/abc is never
consulted successfully and resolution comes back absent. -/
theorem c1_appended_lookup_key :
    remoteRequestPath "abc" = "tracks/abcaa" ∧
    remoteRequestPath "abc" ≠ "tracks/abc" ∧
    get_spotify_info ⟨[], some c1svc⟩ (.str "abc") = .ok none :=
  ⟨rfl, by decide, rfl⟩
